import Mathlib

/-!
Verification development for the `freedomforiran-project.github.io` MP-lookup
component (`src/components/MPLookup.tsx`).  The TypeScript component is
shallowly embedded: JavaScript string primitives are modelled over `List Char`,
the stateful React search handler `searchMP` becomes an explicit state-passing
function, and the single remote geocoding fetch is supplied as an explicit
`FetchOutcome` oracle argument.  Machine integers do not occur; JavaScript
millisecond timestamps are modelled as `Int` and `Math.floor` of a division as
`Int.fdiv`.
-/

namespace MPLookup

/-! ## JavaScript character classes and string primitives -/

/-- The JS regex class `[A-Za-z]` used by the postal-code pattern. -/
def charLetter (c : Char) : Bool :=
  decide ((65 ≤ c.toNat ∧ c.toNat ≤ 90) ∨ (97 ≤ c.toNat ∧ c.toNat ≤ 122))

/-- The JS regex class `\d` (`[0-9]`). -/
def charDigit (c : Char) : Bool :=
  decide (48 ≤ c.toNat ∧ c.toNat ≤ 57)

/-- The JS regex class `\s` (white space, as matched by JS `\s`, `trim` and
`replace`): tab through carriage return, space, NBSP, and the Unicode
space separators, line separators and BOM. -/
def charSpace (c : Char) : Bool :=
  decide ((9 ≤ c.toNat ∧ c.toNat ≤ 13) ∨ c.toNat = 32 ∨ c.toNat = 160 ∨
    c.toNat = 5760 ∨ (8192 ≤ c.toNat ∧ c.toNat ≤ 8202) ∨ c.toNat = 8232 ∨
    c.toNat = 8233 ∨ c.toNat = 8239 ∨ c.toNat = 8287 ∨ c.toNat = 12288 ∨
    c.toNat = 65279)

/-- ASCII lower-casing of a single character, as `String.prototype.toLowerCase`
acts on the ASCII range (the only range exercised by the comparisons of the component). -/
def lowerChar (c : Char) : Char :=
  if 65 ≤ c.toNat ∧ c.toNat ≤ 90 then Char.ofNat (c.toNat + 32) else c

/-- ASCII upper-casing of a single character, as `String.prototype.toUpperCase`
acts on the ASCII range. -/
def upperChar (c : Char) : Char :=
  if 97 ≤ c.toNat ∧ c.toNat ≤ 122 then Char.ofNat (c.toNat - 32) else c

/-- JS `s.toLowerCase()`. -/
def jsToLower (s : String) : String := ⟨s.data.map lowerChar⟩

/-- JS `s.toUpperCase()`. -/
def jsToUpper (s : String) : String := ⟨s.data.map upperChar⟩

/-- JS `s.trim()` on the character list: drop leading and trailing `\s`. -/
def jsTrimL (l : List Char) : List Char :=
  ((l.dropWhile charSpace).reverse.dropWhile charSpace).reverse

/-- JS `s.trim()`. -/
def jsTrim (s : String) : String := ⟨jsTrimL s.data⟩

/-- JS `s.replace` with the global `\s` regex and empty replacement: remove every white-space character. -/
def stripSpaces (s : String) : String := ⟨s.data.filter (fun c => !charSpace c)⟩

/-- JS `s.length` counts UTF-16 code units: astral characters count twice. -/
def utf16Units (c : Char) : Nat := if 65536 ≤ c.toNat then 2 else 1

/-- JS `s.length` (UTF-16 code units). -/
def utf16Len (s : String) : Nat := (s.data.map utf16Units).sum

/-- JS `hay.includes(needle)` on character lists: some suffix of the hay
starts with the needle. -/
def hasOccurL (needle : List Char) : List Char → Bool
  | [] => needle.isPrefixOf ([] : List Char)
  | c :: t => needle.isPrefixOf (c :: t) || hasOccurL needle t

/-- JS `hay.includes(needle)`. -/
def strIncludes (hay needle : String) : Bool := hasOccurL needle.data hay.data

/-- JS `hay.startsWith(p)`. -/
def strStartsWith (hay p : String) : Bool := p.data.isPrefixOf hay.data

/-- JS `s.replace(pat, rep)` with a string pattern replaces only the first
occurrence (the occurrence at the leftmost starting position). -/
def replaceFirstL (pat rep : List Char) : List Char → List Char
  | [] => if pat.isPrefixOf ([] : List Char) then rep else []
  | c :: t =>
    if pat.isPrefixOf (c :: t) then rep ++ (c :: t).drop pat.length
    else c :: replaceFirstL pat rep t

/-- JS `s.replace(pat, rep)` (first occurrence only). -/
def replaceFirst (s pat rep : String) : String := ⟨replaceFirstL pat.data rep.data s.data⟩

/-- JS `s.split(sep)` for a single-character separator, on character lists.
Always returns a non-empty list of fields. -/
def splitOnCharL (sep : Char) : List Char → List (List Char)
  | [] => [[]]
  | c :: t =>
    let r := splitOnCharL sep t
    if c == sep then [] :: r
    else
      match r with
      | [] => [[c]]
      | h :: t2 => (c :: h) :: t2

/-- JS `s.split(sep)` for a single-character separator. -/
def splitOnChar (sep : Char) (s : String) : List String :=
  (splitOnCharL sep s.data).map (fun l => ⟨l⟩)

/-- Truthiness of an optional JS string: present and non-empty. -/
def optTruthy : Option String → Bool
  | none => false
  | some s => s ≠ ""

/-! ## Data model (`interface MP`, geocoding response, template fixture) -/

/-- The `MP` record of `MPLookup.tsx`.  The optional TS fields `isDefault`,
`actualConstituency` and `postalCode` (absent on roster rows, added only when
substituting the default contact) are modelled with `Bool`/`Option`. -/
structure MP where
  firstName : String
  lastName : String
  fullName : String
  constituency : String
  province : String
  party : String
  email : String
  isDefault : Bool := false
  actualConstituency : Option String := none
  postalCode : Option String := none
deriving DecidableEq, Repr

/-- One entry of the geocoding response boundary lists: `boundary_set_name`
may be absent (it is truthiness-tested before use) and `name` is the district
name. -/
structure Boundary where
  boundary_set_name : Option String
  name : String
deriving DecidableEq, Repr

/-- `{body}` entry of the email template fixture. -/
structure TemplateEntry where
  body : String
deriving DecidableEq, Repr

/-- The `email-templates.json` shape used by `getEmailTemplate`. -/
structure EmailTemplates where
  regularTemplates : List TemplateEntry
  primeMinisterTemplate : TemplateEntry
  frenchTemplates : List TemplateEntry
deriving DecidableEq, Repr

/-- The `en | fr` language parameter. -/
inductive Language where
  | en
  | fr
deriving DecidableEq, Repr

/-- The transient search session state of the component:
`mp`, `suggestions`, `error`, `loading`, `usedPostalCode`. -/
structure SearchState where
  mp : Option MP
  suggestions : List MP
  error : String
  loading : Bool
  usedPostalCode : Bool
deriving DecidableEq, Repr

/-- Which branch of `searchMP` ran to completion. -/
inductive SearchPath where
  | validationError
  | postalPath
  | textPath
deriving DecidableEq, Repr

/-- Outcome of the single `fetch` against the geocoding service, supplied to
the embedded `searchMP` as an oracle: non-ok HTTP status, a thrown network
error carrying its message, or a parsed JSON body with the two optional
boundary lists. -/
inductive FetchOutcome where
  | notOk
  | netError (msg : String)
  | success (centroid concordance : Option (List Boundary))
deriving DecidableEq, Repr

/-- Result of one completed `searchMP` invocation: the final session state,
the branch taken, whether the geocoding request was issued, and the
`trackEvent` beacons fired (event type, MP name, constituency). -/
structure SearchOutput where
  state : SearchState
  path : SearchPath
  fetched : Bool
  tracked : List (String × String × String)
deriving DecidableEq, Repr

/-! ## The resolver (`searchMP`) -/

/-- The fixed Canadian postal-code regex
`/^[A-Za-z]\d[A-Za-z]\s?\d[A-Za-z]\d$/` on a character list: six characters
letter-digit-letter-digit-letter-digit, optionally with one white-space
character after the third. -/
def shapeB : List Char → Bool
  | [a, b, c, d, e, f] =>
    charLetter a && charDigit b && charLetter c && charDigit d &&
      charLetter e && charDigit f
  | [a, b, c, w, d, e, f] =>
    charLetter a && charDigit b && charLetter c && charSpace w &&
      charDigit d && charLetter e && charDigit f
  | _ => false

/-- `postalCodePattern.test(query)`: classification of the trimmed query as a
postal code. -/
def isPostalCodeShape (s : String) : Bool := shapeB s.data

/-- `data.boundaries_centroid || data.boundaries_concordance || []` — JS `||`
on the two optional lists (a present empty array is truthy). -/
def pickBoundaries (centroid concordance : Option (List Boundary)) : List Boundary :=
  match centroid with
  | some l => l
  | none =>
    match concordance with
    | some l => l
    | none => []

/-- Predicate of `boundaries.find(...)`: `b.boundary_set_name` is truthy and
its lower-casing includes `federal`. -/
def boundaryIsFederal (b : Boundary) : Bool :=
  match b.boundary_set_name with
  | none => false
  | some s => s ≠ "" && strIncludes (jsToLower s) "federal"

/-- First boundary whose set name is federal. -/
def findFederal (bs : List Boundary) : Option Boundary := bs.find? boundaryIsFederal

/-- Exact constituency match: `mp.constituency.toLowerCase() === name.toLowerCase()`. -/
def constituencyExact (name : String) (m : MP) : Bool :=
  jsToLower m.constituency == jsToLower name

/-- The prefix used by the second-stage match:
`constituencyName.split('—')[0].toLowerCase().trim()`. -/
def districtFirstPart (name : String) : String :=
  jsTrim (jsToLower ((splitOnChar '—' name).headD ""))

/-- Second-stage match: `mp.constituency.toLowerCase().startsWith(firstPart)`. -/
def constituencyStarts (firstPart : String) (m : MP) : Bool :=
  strStartsWith (jsToLower m.constituency) firstPart

/-- The designated default contact test: `mp.fullName === "Mark Carney"` (source uses single quotes). -/
def isCarney (m : MP) : Bool := m.fullName == "Mark Carney"

/-- Text-path match predicate: case-insensitive substring hit on any of the
five fields full name, constituency, province, last name, first name. -/
def mpMatches (queryLower : String) (m : MP) : Bool :=
  strIncludes (jsToLower m.fullName) queryLower ||
  strIncludes (jsToLower m.constituency) queryLower ||
  strIncludes (jsToLower m.province) queryLower ||
  strIncludes (jsToLower m.lastName) queryLower ||
  strIncludes (jsToLower m.firstName) queryLower

/-- Error note shown when the resolved constituency has no roster match and
the default contact substitutes for it. -/
def vacantNote (constituencyName : String) : String :=
  "Note: The constituency \"" ++ constituencyName ++
    "\" seat is currently vacant or not in our database. Your email will be sent to Mark Carney (Prime Minister) with your constituency information."

/-- Error shown when neither a roster match nor the default contact exists. -/
def noMatchNote (constituencyName : String) : String :=
  "Found constituency \"" ++ constituencyName ++
    "\" but couldn\u0027t match with MP database. Try searching by name instead."

/-- Validation message for an empty query. -/
def msgEmptyPrompt : String :=
  "Please enter a postal code, MP name, constituency, or city"

/-- Validation message for a too-short query. -/
def msgTooShort : String := "Please enter at least 2 characters"

/-- Not-found message of the text path. -/
def msgNotFound : String :=
  "No MP found. Try searching by postal code, MP name, constituency, city, or province."

/-- Caption of the suggestion list: `Found N matches. Please select one below:`. -/
def msgFound (n : Nat) : String :=
  "Found " ++ toString n ++ " matches. Please select one below:"

/-- HTTP-failure message thrown for a non-ok geocoding response. -/
def msgLookupFailed : String := "Unable to find MP for this postal code"

/-- Message thrown when the boundary list has no federal entry. -/
def msgNoFederal : String := "No federal constituency found for this postal code"

/-- The postal-code branch of `searchMP` (body of the `try`/`catch` after
`setUsedPostalCode(true)`), with the fetch outcome supplied explicitly. -/
def postalStep (queryUpper : String) (allMPs : List MP) (fetch : FetchOutcome)
    (st0 : SearchState) : SearchOutput :=
  let st := { st0 with usedPostalCode := true }
  match fetch with
  | .notOk =>
    ⟨{ st with error := msgLookupFailed, loading := false }, .postalPath, true, []⟩
  | .netError msg =>
    ⟨{ st with error := msg, loading := false }, .postalPath, true, []⟩
  | .success centroid concordance =>
    match findFederal (pickBoundaries centroid concordance) with
    | none =>
      ⟨{ st with error := msgNoFederal, loading := false }, .postalPath, true, []⟩
    | some fd =>
      let constituencyName := fd.name
      let foundMP :=
        match allMPs.find? (constituencyExact constituencyName) with
        | some m => some m
        | none => allMPs.find? (constituencyStarts (districtFirstPart constituencyName))
      match foundMP with
      | some m =>
        ⟨{ st with mp := some m, loading := false }, .postalPath, true,
          [("Search MP", m.fullName, m.constituency)]⟩
      | none =>
        match allMPs.find? isCarney with
        | some carney =>
          ⟨{ st with
              mp := some { carney with
                isDefault := true,
                actualConstituency := some constituencyName,
                postalCode := some queryUpper },
              error := vacantNote constituencyName,
              loading := false }, .postalPath, true,
            [("Search MP", carney.fullName, constituencyName)]⟩
        | none =>
          ⟨{ st with error := noMatchNote constituencyName, loading := false },
            .postalPath, true, []⟩

/-- The local text-search branch of `searchMP` (body of the `setTimeout`
callback; the 300 ms delay is a UX affordance with no effect on the final
state). -/
def textSearchStep (query : String) (allMPs : List MP) (st : SearchState) :
    SearchOutput :=
  let queryLower := jsToLower query
  let results := allMPs.filter (mpMatches queryLower)
  match results with
  | [] =>
    ⟨{ st with error := msgNotFound, loading := false }, .textPath, false, []⟩
  | [m] =>
    ⟨{ st with mp := some m, loading := false }, .textPath, false,
      [("Search MP", m.fullName, m.constituency)]⟩
  | _ =>
    ⟨{ st with suggestions := results.take 10,
               error := msgFound results.length,
               loading := false }, .textPath, false, []⟩

/-- The state resets at the top of every non-validation search:
`setLoading(true)`, `setError` with the empty string, `setMp(null)`, `setSuggestions([])`,
`setUsedPostalCode(false)`. -/
def resetState (st : SearchState) : SearchState :=
  { st with loading := true, error := "", mp := none, suggestions := [],
            usedPostalCode := false }

/-- The `searchMP` handler: trim and validate the input, reset the session
state, classify the query, and run the postal-code or text branch. -/
def searchMP (searchInput : String) (allMPs : List MP) (fetch : FetchOutcome)
    (st : SearchState) : SearchOutput :=
  let query := jsTrim searchInput
  if query = "" then
    ⟨{ st with error := msgEmptyPrompt }, .validationError, false, []⟩
  else if utf16Len query < 2 then
    ⟨{ st with error := msgTooShort }, .validationError, false, []⟩
  else
    let st1 := resetState st
    let queryUpper := stripSpaces (jsToUpper query)
    if isPostalCodeShape query then postalStep queryUpper allMPs fetch st1
    else textSearchStep query allMPs st1

/-! ## The composer (`getEmailTemplate`, `createMailtoLink` body) -/

/-- Milliseconds per day, the divisor `1000 * 60 * 60 * 24`. -/
def msPerDay : Int := 86400000

/-- `Math.floor((today - startDate) / msPerDay)` where both timestamps have
been set to local midnight (`setHours(0,0,0,0)`); the campaign start date is
January 8, 2026.  Timestamps are epoch milliseconds as `Int`; `Math.floor`
of the real quotient is `Int.fdiv`. -/
def daysSinceStart (todayMidnight startMidnight : Int) : Int :=
  (todayMidnight - startMidnight).fdiv msPerDay

/-- Template choice of `getEmailTemplate`: French requests draw from
`frenchTemplates`; otherwise `Mark Carney` gets the Prime-Minister template
and every other MP draws from `regularTemplates`.  The random draw
`Math.floor(Math.random() * list.length)` is modelled by an injected natural
`r`, reduced to an index by `r % list.length`. -/
def selectTemplate (ts : EmailTemplates) (mpData : MP) (language : Language)
    (r : Nat) : String :=
  match language with
  | .fr => (ts.frenchTemplates.getD (r % ts.frenchTemplates.length) ⟨""⟩).body
  | .en =>
    if mpData.fullName == "Mark Carney" then ts.primeMinisterTemplate.body
    else (ts.regularTemplates.getD (r % ts.regularTemplates.length) ⟨""⟩).body

/-- `getEmailTemplate(mpData, language)`: empty string while the fixture has
not loaded, otherwise the selected template with the first `[DAYS_COUNT]`
occurrence replaced by the day count. -/
def getEmailTemplate (emailTemplates : Option EmailTemplates) (mpData : MP)
    (language : Language) (r : Nat) (todayMidnight startMidnight : Int) : String :=
  match emailTemplates with
  | none => ""
  | some ts =>
    replaceFirst (selectTemplate ts mpData language r) "[DAYS_COUNT]"
      (toString (daysSinceStart todayMidnight startMidnight))

/-- The vacant-seat note block appended when the result is the default
contact, in the English or French variant, including the optional postal-code
clause. -/
def constituencyNote (language : Language) (mpData : MP) : String :=
  let pcClause (label : String) : String :=
    if optTruthy mpData.postalCode then
      " (" ++ label ++ ": " ++ mpData.postalCode.getD "" ++ ")"
    else ""
  match language with
  | .fr =>
    "\n\nNote: J\u0027écris de la circonscription " ++
      mpData.actualConstituency.getD "" ++ pcClause "Code postal" ++
      ", qui a actuellement un siège vacant. Je vous contacte en tant que Premier ministre pour m\u0027assurer que cette question importante reçoit l\u0027attention nécessaire."
  | .en =>
    "\n\nNote: I am writing from the " ++ mpData.actualConstituency.getD "" ++
      " constituency" ++ pcClause "Postal Code" ++
      ", which currently has a vacant seat. I am reaching out to you as Prime Minister to ensure this important issue receives attention."

/-- The email body built by `createMailtoLink` before percent-encoding:
two first-occurrence replacements of `[MP_NAME]`, one of
`[CONSTITUENCY_INFO]` by `constituency, province`, and the vacant-seat note
when the record is a default-contact fallback with a truthy
`actualConstituency`. -/
def composeEmailBody (emailTemplates : Option EmailTemplates) (mpData : MP)
    (language : Language) (r : Nat) (todayMidnight startMidnight : Int) : String :=
  let emailBody :=
    replaceFirst (getEmailTemplate emailTemplates mpData language r todayMidnight startMidnight)
      "[MP_NAME]" mpData.fullName
  let emailBody := replaceFirst emailBody "[MP_NAME]" mpData.fullName
  let locationInfo := mpData.constituency ++ ", " ++ mpData.province
  let emailBody := replaceFirst emailBody "[CONSTITUENCY_INFO]" locationInfo
  if mpData.isDefault && optTruthy mpData.actualConstituency then
    emailBody ++ constituencyNote language mpData
  else emailBody

/-! ## The usage counter (`fetchEmailCount`) -/

/-- The quote-stripping regex replace `^"(.*)"$` with `$1`: a full match
requires at least two characters, a double quote at both ends, and no
newline in between (JS `.` does not match a newline); otherwise the string
is returned unchanged. -/
def cleanQuotes (s : String) : String :=
  let l := s.data
  if 2 ≤ l.length ∧ l.head? = some '"' ∧ l.getLast? = some '"' ∧
      '\n' ∉ (l.drop 1).dropLast then
    ⟨(l.drop 1).dropLast⟩
  else s

/-- One loop iteration of the CSV counter: split the line on commas, and
when there is a second column, trim it, strip surrounding quotes, and
compare with the literal `Send email`. -/
def rowIsSend (line : String) : Bool :=
  let columns := splitOnChar ',' line
  if 1 < columns.length then
    cleanQuotes (jsTrim (columns.getD 1 "")) == "Send email"
  else false

/-- The counting stage of `fetchEmailCount` after the newline split: a
header-only (or empty) sheet counts zero, otherwise the data rows whose
second column is `Send email` are counted. -/
def parseEmailCountLines (lines : List String) : Nat :=
  if lines.length ≤ 1 then 0
  else ((lines.drop 1).filter rowIsSend).length

/-- The parsing stage of `fetchEmailCount`: `csvText.trim().split` on newlines
followed by the count. -/
def parseEmailCount (csvText : String) : Nat :=
  parseEmailCountLines (splitOnChar '\n' (jsTrim csvText))

/-- `fetchEmailCount` end to end: a failed fetch (or failed body read) lands
in the `catch` and sets the displayed count to `null` (the unavailable
state); a fetched body is parsed and its count displayed. -/
def fetchEmailCountResult (fetched : Option String) : Option Nat :=
  match fetched with
  | none => none
  | some csvText => some (parseEmailCount csvText)

/-! ## Basic lemmas about the embedded primitives -/

theorem utf16Units_pos (c : Char) : 1 ≤ utf16Units c := by
  unfold utf16Units; split <;> omega

theorem length_le_utf16 (l : List Char) : l.length ≤ (l.map utf16Units).sum := by
  induction l with
  | nil => simp
  | cons c t ih =>
    have := utf16Units_pos c
    simp only [List.map_cons, List.sum_cons, List.length_cons]
    omega

theorem shapeB_length {l : List Char} (h : shapeB l = true) :
    l.length = 6 ∨ l.length = 7 := by
  unfold shapeB at h
  split at h
  · left; rfl
  · right; rfl
  · exact absurd h (by simp)

/-- A postal-shaped trimmed query passes both validation checks. -/
theorem postal_passes_validation {q : String} (h : isPostalCodeShape q = true) :
    q ≠ "" ∧ ¬ utf16Len q < 2 := by
  have hlen := shapeB_length (l := q.data) h
  constructor
  · intro he
    subst he
    simp at hlen
  · have h6 : 2 ≤ q.data.length := by omega
    have := length_le_utf16 q.data
    unfold utf16Len
    omega

/-- Reduction of `searchMP` once validation passes. -/
theorem searchMP_run (input : String) (roster : List MP) (fetch : FetchOutcome)
    (st : SearchState) (h1 : jsTrim input ≠ "")
    (h2 : ¬ utf16Len (jsTrim input) < 2) :
    searchMP input roster fetch st =
      if isPostalCodeShape (jsTrim input) then
        postalStep (stripSpaces (jsToUpper (jsTrim input))) roster fetch (resetState st)
      else textSearchStep (jsTrim input) roster (resetState st) := by
  unfold searchMP
  rw [if_neg h1, if_neg h2]

/-! ## C9: validation errors stop the search before either path -/

/-- C9: for every input whose trimmed content is empty or shorter than two
UTF-16 units, `searchMP` reports the matching validation message, issues no
network request, fires no tracking beacon, and enters neither the postal-code
path nor the text path. -/
theorem validation_stops_search (input : String) (roster : List MP)
    (fetch : FetchOutcome) (st : SearchState)
    (h : jsTrim input = "" ∨ utf16Len (jsTrim input) < 2) :
    (searchMP input roster fetch st).path = SearchPath.validationError ∧
    (searchMP input roster fetch st).fetched = false ∧
    (searchMP input roster fetch st).tracked = [] ∧
    (jsTrim input = "" →
      (searchMP input roster fetch st).state.error = msgEmptyPrompt) ∧
    (jsTrim input ≠ "" →
      (searchMP input roster fetch st).state.error = msgTooShort) := by
  unfold searchMP
  by_cases h0 : jsTrim input = ""
  · rw [if_pos h0]
    exact ⟨rfl, rfl, rfl, fun _ => rfl, fun hne => absurd h0 hne⟩
  · have h2 : utf16Len (jsTrim input) < 2 := h.resolve_left h0
    rw [if_neg h0, if_pos h2]
    exact ⟨rfl, rfl, rfl, fun he => absurd he h0, fun _ => rfl⟩

theorem validation_stops_search_witness :
    (searchMP "x" [] FetchOutcome.notOk ⟨none, [], "", false, false⟩).path =
      SearchPath.validationError ∧
    (searchMP "x" [] FetchOutcome.notOk ⟨none, [], "", false, false⟩).state.error =
      msgTooShort :=
  have h := validation_stops_search "x" [] FetchOutcome.notOk
    ⟨none, [], "", false, false⟩ (Or.inr (by decide))
  ⟨h.1, h.2.2.2.2 (by decide)⟩

/-! ## C1: exclusivity of the populated result forms -/

/-- How many of {single MP result, suggestion list, error message} are
populated in a session state (the quantity the spec invariant bounds by
one). -/
def populatedCount (st : SearchState) : Nat :=
  (if st.mp.isSome then 1 else 0) + (if st.suggestions ≠ [] then 1 else 0) +
    (if st.error ≠ "" then 1 else 0)

/-- Sample roster rows used by concrete evaluations. -/
def mpOttawaA : MP :=
  { firstName := "Alice", lastName := "Otter", fullName := "Alice Otter",
    constituency := "Ottawa Centre", province := "Ontario",
    party := "Independent", email := "alice@example.org" }

def mpOttawaB : MP :=
  { firstName := "Bob", lastName := "Ottman", fullName := "Bob Ottman",
    constituency := "Ottawa South", province := "Ontario",
    party := "Independent", email := "bob@example.org" }

/-- C1 as stated is false on the code: a text search with two hits completes
with both the suggestion list and the error message (its caption `Found 2
matches. ...`) populated. -/
theorem search_exclusive_counterexample :
    ¬ populatedCount
        (searchMP "ot" [mpOttawaA, mpOttawaB] FetchOutcome.notOk
          ⟨none, [], "", false, false⟩).state ≤ 1 := by
  decide

/-- C1 amended: for every completed search (postal-code or text path), at
most one of {single MP result, suggestion list} is populated; the error
string may accompany either (as the suggestion-list caption or the
vacant-seat note). -/
theorem search_exclusive
    (input : String) (roster : List MP) (fetch : FetchOutcome) (st : SearchState)
    (h : (searchMP input roster fetch st).path ≠ SearchPath.validationError) :
    ¬((searchMP input roster fetch st).state.mp.isSome = true ∧
      (searchMP input roster fetch st).state.suggestions ≠ []) := by
  by_cases h0 : jsTrim input = ""
  · exfalso
    apply h
    unfold searchMP
    rw [if_pos h0]
  by_cases h2 : utf16Len (jsTrim input) < 2
  · exfalso
    apply h
    unfold searchMP
    rw [if_neg h0, if_pos h2]
  rw [searchMP_run input roster fetch st h0 h2]
  split
  · unfold postalStep
    rcases fetch with _ | msg | ⟨c, cc⟩
    · simp [resetState]
    · simp [resetState]
    · simp only []
      split
      · simp [resetState]
      · split
        · simp [resetState]
        · split
          · simp [resetState]
          · simp [resetState]
  · unfold textSearchStep
    simp only []
    split
    · simp [resetState]
    · simp [resetState]
    · simp [resetState]

theorem search_exclusive_witness :
    ¬((searchMP "zz" [] FetchOutcome.notOk ⟨none, [], "", false, false⟩).state.mp.isSome = true ∧
      (searchMP "zz" [] FetchOutcome.notOk ⟨none, [], "", false, false⟩).state.suggestions ≠ []) :=
  search_exclusive "zz" [] FetchOutcome.notOk ⟨none, [], "", false, false⟩ (by decide)

/-! ## C3: postal-code classification, case and whitespace -/

/-- Two characters equal up to ASCII letter case. -/
def caseRel (c d : Char) : Prop :=
  c = d ∨ (65 ≤ c.toNat ∧ c.toNat ≤ 90 ∧ d.toNat = c.toNat + 32) ∨
    (65 ≤ d.toNat ∧ d.toNat ≤ 90 ∧ c.toNat = d.toNat + 32)

theorem caseRel_classes {c d : Char} (h : caseRel c d) :
    charLetter c = charLetter d ∧ charDigit c = charDigit d ∧
      charSpace c = charSpace d := by
  rcases h with rfl | ⟨h1, h2, h3⟩ | ⟨h1, h2, h3⟩
  · exact ⟨rfl, rfl, rfl⟩
  · refine ⟨?_, ?_, ?_⟩ <;>
      simp only [charLetter, charDigit, charSpace, decide_eq_decide] <;> omega
  · refine ⟨?_, ?_, ?_⟩ <;>
      simp only [charLetter, charDigit, charSpace, decide_eq_decide] <;> omega

/-- The postal-code pattern only inspects the character classes, which are
invariant under `caseRel`. -/
theorem shapeB_caseRel : ∀ {l1 l2 : List Char},
    List.Forall₂ caseRel l1 l2 → shapeB l1 = shapeB l2 := by
  intro l1 l2 h
  cases h with
  | nil => rfl
  | cons h1 h =>
  cases h with
  | nil => rfl
  | cons h2 h =>
  cases h with
  | nil => rfl
  | cons h3 h =>
  cases h with
  | nil => rfl
  | cons h4 h =>
  cases h with
  | nil => rfl
  | cons h5 h =>
  cases h with
  | nil => rfl
  | cons h6 h =>
  cases h with
  | nil =>
    obtain ⟨e1, _, _⟩ := caseRel_classes h1
    obtain ⟨_, e2, _⟩ := caseRel_classes h2
    obtain ⟨e3, _, _⟩ := caseRel_classes h3
    obtain ⟨_, e4, _⟩ := caseRel_classes h4
    obtain ⟨e5, _, _⟩ := caseRel_classes h5
    obtain ⟨_, e6, _⟩ := caseRel_classes h6
    simp only [shapeB]
    rw [e1, e2, e3, e4, e5, e6]
  | cons h7 h =>
  cases h with
  | nil =>
    obtain ⟨e1, _, _⟩ := caseRel_classes h1
    obtain ⟨_, e2, _⟩ := caseRel_classes h2
    obtain ⟨e3, _, _⟩ := caseRel_classes h3
    obtain ⟨_, _, e4⟩ := caseRel_classes h4
    obtain ⟨_, e5, _⟩ := caseRel_classes h5
    obtain ⟨e6, _, _⟩ := caseRel_classes h6
    obtain ⟨_, e7, _⟩ := caseRel_classes h7
    simp only [shapeB]
    rw [e1, e2, e3, e4, e5, e6, e7]
  | cons h8 h => rfl

/-- C3 as stated is false on the code: `A1A1A1` is classified as a postal
code, but inserting an internal space after its second character is not (the
pattern admits white space only between the third and fourth characters). -/
theorem postal_classification_counterexample :
    isPostalCodeShape "A1A1A1" = true ∧ isPostalCodeShape "A1 A1A1" = false := by
  decide

/-- C3 amended: every string of valid six-character postal shape is
classified as a postal code; inserting a single white-space character between
the third and fourth characters keeps it classified; and classification of
any input is invariant under per-character letter-case changes.  (Inserting
white space at other internal positions can change the classification, as
the counterexample shows.) -/
theorem postal_classification_case_space (a b c d e f w : Char)
    (hshape : (charLetter a && charDigit b && charLetter c && charDigit d &&
      charLetter e && charDigit f) = true)
    (hw : charSpace w = true) :
    isPostalCodeShape ⟨[a, b, c, d, e, f]⟩ = true ∧
    isPostalCodeShape ⟨[a, b, c, w, d, e, f]⟩ = true ∧
    ∀ (s t : String), List.Forall₂ caseRel s.data t.data →
      isPostalCodeShape s = isPostalCodeShape t := by
  have h' := hshape
  simp only [Bool.and_eq_true] at h'
  obtain ⟨⟨⟨⟨⟨hA, hB⟩, hC⟩, hD⟩, hE⟩, hF⟩ := h'
  refine ⟨?_, ?_, fun s t h => shapeB_caseRel h⟩
  · simp [isPostalCodeShape, shapeB, hA, hB, hC, hD, hE, hF]
  · simp [isPostalCodeShape, shapeB, hA, hB, hC, hD, hE, hF, hw]

theorem postal_classification_case_space_witness :
    isPostalCodeShape ⟨['K', '1', 'A', '0', 'A', '6']⟩ = true ∧
    isPostalCodeShape ⟨['K', '1', 'A', ' ', '0', 'A', '6']⟩ = true :=
  have h := postal_classification_case_space 'K' '1' 'A' '0' 'A' '6' ' '
    (by decide) (by decide)
  ⟨h.1, h.2.1⟩

/-! ## C4 and C5: district matching on the postal-code path -/

/-- C4: when the roster holds an MP whose constituency equals the resolved
district name case-insensitively, the postal-code path returns the first such
roster record itself as the single result — error empty, no suggestions, and
no default-contact substitution (the result is a member of the roster,
satisfying the exact-match predicate). -/
theorem exact_match_returns_mp (input : String) (roster : List MP)
    (centroid concordance : Option (List Boundary)) (st : SearchState)
    (fd : Boundary) (m : MP)
    (hq : isPostalCodeShape (jsTrim input) = true)
    (hfd : findFederal (pickBoundaries centroid concordance) = some fd)
    (hm : roster.find? (constituencyExact fd.name) = some m) :
    (searchMP input roster (FetchOutcome.success centroid concordance) st).state.mp
        = some m ∧
    (searchMP input roster (FetchOutcome.success centroid concordance) st).state.error
        = "" ∧
    (searchMP input roster (FetchOutcome.success centroid concordance) st).state.suggestions
        = [] ∧
    m ∈ roster ∧ constituencyExact fd.name m = true := by
  obtain ⟨h1, h2⟩ := postal_passes_validation hq
  rw [searchMP_run input roster _ st h1 h2, if_pos hq]
  refine ⟨?_, ?_, ?_, List.mem_of_find?_eq_some hm, List.find?_some hm⟩ <;>
    simp [postalStep, hfd, hm, resetState]

theorem exact_match_returns_mp_witness :
    (searchMP "K1A 0A6" [mpOttawaA]
        (FetchOutcome.success (some [⟨some "Federal electoral districts", "Ottawa Centre"⟩]) none)
        ⟨none, [], "", false, false⟩).state.mp = some mpOttawaA :=
  (exact_match_returns_mp "K1A 0A6" [mpOttawaA]
    (some [⟨some "Federal electoral districts", "Ottawa Centre"⟩]) none
    ⟨none, [], "", false, false⟩ ⟨some "Federal electoral districts", "Ottawa Centre"⟩
    mpOttawaA (by decide) (by decide) (by decide)).1

/-- The designated default contact roster row used by concrete evaluations. -/
def mpCarney : MP :=
  { firstName := "Mark", lastName := "Carney", fullName := "Mark Carney",
    constituency := "Nepean", province := "Ontario", party := "Liberal",
    email := "mark@example.org" }

/-- C5: with no exact and no first-part match for the resolved district, the
postal-code path substitutes the default contact when present — returning its
roster record with only `isDefault`, `actualConstituency` (the original
district name) and `postalCode` (the upper-cased, whitespace-stripped query)
changed, alongside the vacant-seat note — and ends in an error with no
result when the default contact is absent. -/
theorem fallback_to_default (input : String) (roster : List MP)
    (centroid concordance : Option (List Boundary)) (st : SearchState)
    (fd : Boundary)
    (hq : isPostalCodeShape (jsTrim input) = true)
    (hfd : findFederal (pickBoundaries centroid concordance) = some fd)
    (hex : roster.find? (constituencyExact fd.name) = none)
    (hpre : roster.find? (constituencyStarts (districtFirstPart fd.name)) = none) :
    (∀ carney, roster.find? isCarney = some carney →
      (searchMP input roster (FetchOutcome.success centroid concordance) st).state.mp
          = some { carney with
                    isDefault := true,
                    actualConstituency := some fd.name,
                    postalCode := some (stripSpaces (jsToUpper (jsTrim input))) } ∧
      (searchMP input roster (FetchOutcome.success centroid concordance) st).state.error
          = vacantNote fd.name ∧
      (searchMP input roster (FetchOutcome.success centroid concordance) st).state.suggestions
          = []) ∧
    (roster.find? isCarney = none →
      (searchMP input roster (FetchOutcome.success centroid concordance) st).state.mp
          = none ∧
      (searchMP input roster (FetchOutcome.success centroid concordance) st).state.error
          = noMatchNote fd.name ∧
      (searchMP input roster (FetchOutcome.success centroid concordance) st).state.suggestions
          = []) := by
  obtain ⟨h1, h2⟩ := postal_passes_validation hq
  rw [searchMP_run input roster _ st h1 h2, if_pos hq]
  constructor
  · intro carney hc
    refine ⟨?_, ?_, ?_⟩ <;> simp [postalStep, hfd, hex, hpre, hc, resetState]
  · intro hc
    refine ⟨?_, ?_, ?_⟩ <;> simp [postalStep, hfd, hex, hpre, hc, resetState]

theorem fallback_to_default_witness :
    (searchMP "K1A0A6" [mpCarney]
        (FetchOutcome.success (some [⟨some "2023 federal electoral districts", "Gotham—North"⟩]) none)
        ⟨none, [], "", false, false⟩).state.mp =
      some { mpCarney with
              isDefault := true,
              actualConstituency := some "Gotham—North",
              postalCode := some (stripSpaces (jsToUpper (jsTrim "K1A0A6"))) } :=
  ((fallback_to_default "K1A0A6" [mpCarney]
      (some [⟨some "2023 federal electoral districts", "Gotham—North"⟩]) none
      ⟨none, [], "", false, false⟩ ⟨some "2023 federal electoral districts", "Gotham—North"⟩
      (by decide) (by decide) (by decide) (by decide)).1 mpCarney (by decide)).1

/-! ## C6: outcomes of the text path -/

/-- C6: for a validated non-postal query, the text path yields exactly one of
the three outcomes — zero hits across the five fields give the not-found
error, exactly one hit gives that MP as the single result, and several hits
give the first at most ten matching records in roster order as suggestions
(never more than ten). -/
theorem text_search_outcomes (input : String) (roster : List MP)
    (fetch : FetchOutcome) (st : SearchState)
    (h1 : jsTrim input ≠ "") (h2 : ¬ utf16Len (jsTrim input) < 2)
    (h3 : isPostalCodeShape (jsTrim input) = false) :
    (roster.filter (mpMatches (jsToLower (jsTrim input))) = [] →
      (searchMP input roster fetch st).state.error = msgNotFound ∧
      (searchMP input roster fetch st).state.mp = none ∧
      (searchMP input roster fetch st).state.suggestions = []) ∧
    (∀ m, roster.filter (mpMatches (jsToLower (jsTrim input))) = [m] →
      (searchMP input roster fetch st).state.mp = some m ∧
      (searchMP input roster fetch st).state.error = "" ∧
      (searchMP input roster fetch st).state.suggestions = []) ∧
    (2 ≤ (roster.filter (mpMatches (jsToLower (jsTrim input)))).length →
      (searchMP input roster fetch st).state.suggestions =
        (roster.filter (mpMatches (jsToLower (jsTrim input)))).take 10 ∧
      (searchMP input roster fetch st).state.suggestions.length ≤ 10 ∧
      (searchMP input roster fetch st).state.mp = none ∧
      (searchMP input roster fetch st).state.error =
        msgFound (roster.filter (mpMatches (jsToLower (jsTrim input)))).length) := by
  rw [searchMP_run input roster fetch st h1 h2, h3]
  simp only [Bool.false_eq_true, if_false]
  rcases hres : roster.filter (mpMatches (jsToLower (jsTrim input))) with _ | ⟨m1, _ | ⟨m2, rest⟩⟩
  · refine ⟨fun _ => ?_, fun m hm => absurd hm (by simp), fun hlen => ?_⟩
    · refine ⟨?_, ?_, ?_⟩ <;> simp [textSearchStep, hres, resetState]
    · simp at hlen
  · refine ⟨fun he => absurd he (by simp), fun m hm => ?_, fun hlen => ?_⟩
    · obtain rfl : m1 = m := by simpa using hm
      refine ⟨?_, ?_, ?_⟩ <;> simp [textSearchStep, hres, resetState]
    · simp at hlen
  · refine ⟨fun he => absurd he (by simp), fun m hm => absurd hm (by simp),
      fun hlen => ?_⟩
    refine ⟨?_, ?_, ?_, ?_⟩ <;> simp [textSearchStep, hres, resetState, List.length_take]

theorem text_search_outcomes_witness :
    (searchMP "ottawa" [mpOttawaA, mpOttawaB] FetchOutcome.notOk
        ⟨none, [], "", false, false⟩).state.suggestions =
      ([mpOttawaA, mpOttawaB].filter (mpMatches (jsToLower (jsTrim "ottawa")))).take 10 :=
  ((text_search_outcomes "ottawa" [mpOttawaA, mpOttawaB] FetchOutcome.notOk
      ⟨none, [], "", false, false⟩ (by decide) (by decide) (by decide)).2.2
    (by decide)).1

/-! ## C2: template selection -/

theorem getD_mem {α : Type} : ∀ (l : List α) (n : Nat), n < l.length →
    ∀ d : α, l.getD n d ∈ l := by
  intro l
  induction l with
  | nil => intro n h d; simp at h
  | cons a t ih =>
    intro n h d
    cases n with
    | zero => simp
    | succ n =>
      simp only [List.getD_cons_succ]
      exact List.mem_cons_of_mem a (ih n (by simpa using h) d)

/-- A sample template fixture shape used for concrete evaluations. -/
def tsSample : EmailTemplates :=
  ⟨[⟨"REG"⟩], ⟨"PM"⟩, [⟨"FR"⟩]⟩

/-- C2 as stated is false on the code: for an MP named `Mark Carney` with
French requested, `getEmailTemplate` tests the language first and draws from
the French list, not the single prime-minister template the claim
prescribes. -/
theorem template_selection_counterexample :
    selectTemplate tsSample mpCarney Language.fr 0 ≠
      tsSample.primeMinisterTemplate.body := by
  decide

/-- C2 amended: the language test comes first — a French request draws from
the French template list (the entry at the injected random index) for every
MP, including the default contact; for English, the default contact gets the
single prime-minister template and any other MP draws from the regular
list. -/
theorem template_selection (ts : EmailTemplates) (mpData : MP) (r : Nat) :
    (selectTemplate ts mpData Language.fr r =
      (ts.frenchTemplates.getD (r % ts.frenchTemplates.length) ⟨""⟩).body) ∧
    (ts.frenchTemplates ≠ [] →
      ∃ t ∈ ts.frenchTemplates, selectTemplate ts mpData Language.fr r = t.body) ∧
    (mpData.fullName = "Mark Carney" →
      selectTemplate ts mpData Language.en r = ts.primeMinisterTemplate.body) ∧
    (mpData.fullName ≠ "Mark Carney" →
      selectTemplate ts mpData Language.en r =
        (ts.regularTemplates.getD (r % ts.regularTemplates.length) ⟨""⟩).body ∧
      (ts.regularTemplates ≠ [] →
        ∃ t ∈ ts.regularTemplates, selectTemplate ts mpData Language.en r = t.body)) := by
  refine ⟨rfl, fun hne => ?_, fun hc => ?_, fun hnc => ⟨?_, fun hne => ?_⟩⟩
  · have hlt : r % ts.frenchTemplates.length < ts.frenchTemplates.length :=
      Nat.mod_lt _ (List.length_pos.mpr hne)
    exact ⟨_, getD_mem _ _ hlt _, rfl⟩
  · simp [selectTemplate, hc]
  · simp [selectTemplate, hnc]
  · have hlt : r % ts.regularTemplates.length < ts.regularTemplates.length :=
      Nat.mod_lt _ (List.length_pos.mpr hne)
    exact ⟨ts.regularTemplates.getD (r % ts.regularTemplates.length) ⟨""⟩,
      getD_mem _ _ hlt _, by simp [selectTemplate, hnc]⟩

theorem template_selection_witness :
    selectTemplate tsSample mpOttawaA Language.en 0 =
      (tsSample.regularTemplates.getD (0 % tsSample.regularTemplates.length) ⟨""⟩).body :=
  ((template_selection tsSample mpOttawaA 0).2.2.2 (by decide)).1

/-! ## C8: the day count -/

/-- C8: the `[DAYS_COUNT]` value is the floor of the whole-day difference
between today at local midnight and the campaign start date at local
midnight — `0` on the start date itself, `1` one day (`msPerDay`) later,
negative and passed through unclamped when the clock precedes the start
date — and it is exactly the string substituted for the first `[DAYS_COUNT]`
occurrence by `getEmailTemplate`. -/
theorem day_count (startMidnight todayMidnight : Int)
    (hbefore : todayMidnight < startMidnight) :
    daysSinceStart startMidnight startMidnight = 0 ∧
    daysSinceStart (startMidnight + msPerDay) startMidnight = 1 ∧
    daysSinceStart todayMidnight startMidnight < 0 ∧
    (∀ (ts : EmailTemplates) (mpData : MP) (lang : Language) (r : Nat) (t : Int),
      getEmailTemplate (some ts) mpData lang r t startMidnight =
        replaceFirst (selectTemplate ts mpData lang r) "[DAYS_COUNT]"
          (toString (daysSinceStart t startMidnight))) := by
  refine ⟨?_, ?_, ?_, fun ts mpData lang r t => rfl⟩
  · unfold daysSinceStart
    rw [sub_self]
    exact Int.zero_fdiv _
  · unfold daysSinceStart
    rw [add_sub_cancel_left]
    decide
  · unfold daysSinceStart
    rw [Int.fdiv_eq_ediv _ (by decide : (0 : Int) ≤ msPerDay)]
    exact Int.ediv_neg' (by omega) (by decide)

theorem day_count_witness :
    daysSinceStart 0 0 = 0 ∧ daysSinceStart msPerDay 0 = 1 ∧
    daysSinceStart (-1) 0 < 0 :=
  have h := day_count 0 (-1) (by decide)
  ⟨h.1, by simpa using h.2.1, h.2.2.1⟩

/-! ## C10: the usage-counter parser -/

/-- C10: the counter counts exactly the data rows whose second column (after
trimming and optional quote-stripping) is `Send email` — a header plus two
data rows with exactly one such row counts `1`; a header-only sheet counts
`0` (shown both at the line level and on whole CSV texts); and an
unreachable source yields the unavailable state (`none`) instead of
throwing. -/
theorem email_count_parsing :
    (∀ hd r1 r2 : String, rowIsSend r1 = true → rowIsSend r2 = false →
      parseEmailCountLines [hd, r1, r2] = 1) ∧
    (∀ hd : String, parseEmailCountLines [hd] = 0) ∧
    fetchEmailCountResult none = none ∧
    fetchEmailCountResult
      (some "Timestamp,Event Type\nJan 1 2026,\"Send email\"\nJan 2 2026,Share campaign")
      = some 1 ∧
    fetchEmailCountResult (some "Timestamp,Event Type") = some 0 := by
  refine ⟨fun hd r1 r2 h1 h2 => ?_, fun hd => ?_, rfl, ?_, ?_⟩
  · simp [parseEmailCountLines, h1, h2]
  · simp [parseEmailCountLines]
  · decide
  · decide

theorem email_count_parsing_witness :
    parseEmailCountLines
      ["Timestamp,Event Type", "Jan 1,\"Send email\"", "Jan 2,Visit"] = 1 :=
  email_count_parsing.1 "Timestamp,Event Type" "Jan 1,\"Send email\"" "Jan 2,Visit"
    (by decide) (by decide)

/-! ## C7: placeholder elimination in the composed body

The placeholder tokens all start with the bracket `[`; the proofs track
which parts of the composed body can contain a bracket at all. -/

theorem strData_append (a b : String) : (a ++ b).data = a.data ++ b.data := rfl

theorem isPrefixOf_append_self (p t : List Char) :
    p.isPrefixOf (p ++ t) = true := by
  induction p with
  | nil => simp
  | cons c p ih => simp [List.isPrefixOf, ih]

/-- Replacing at an occurrence sitting at the head. -/
theorem replaceFirstL_fire (p r t : List Char) :
    replaceFirstL p r (p ++ t) = r ++ t := by
  cases p with
  | nil =>
    cases t with
    | nil => simp [replaceFirstL, List.isPrefixOf]
    | cons c t => simp [replaceFirstL, List.isPrefixOf]
  | cons a p' =>
    show replaceFirstL (a :: p') r (a :: (p' ++ t)) = r ++ t
    have hpre : (a :: p').isPrefixOf (a :: (p' ++ t)) = true :=
      isPrefixOf_append_self (a :: p') t
    simp only [replaceFirstL, hpre, if_true]
    congr 1
    show (a :: (p' ++ t)).drop (p'.length + 1) = t
    simp [List.drop_left]

/-- A pattern headed by a character absent from `a` matches nowhere in `a`:
replacement passes `a` through. -/
theorem replaceFirstL_skip (pat : List Char) (x : Char) (p r a b : List Char)
    (hpat : pat = x :: p) (ha : x ∉ a) :
    replaceFirstL pat r (a ++ b) = a ++ replaceFirstL pat r b := by
  subst hpat
  induction a with
  | nil => rfl
  | cons c t ih =>
    have hxc : (x == c) = false := by
      simp only [beq_eq_false_iff_ne, ne_eq]
      intro h
      exact ha (h ▸ List.mem_cons_self c t)
    have hih := ih (fun hm => ha (List.mem_cons_of_mem c hm))
    simp [List.cons_append, replaceFirstL, List.isPrefixOf, hxc, hih]

/-- Searching over a segment free of the leading character of the needle. -/
theorem hasOccurL_skip (pat : List Char) (x : Char) (p a b : List Char)
    (hpat : pat = x :: p) (ha : x ∉ a) :
    hasOccurL pat (a ++ b) = hasOccurL pat b := by
  subst hpat
  induction a with
  | nil => rfl
  | cons c t ih =>
    have hxc : (x == c) = false := by
      simp only [beq_eq_false_iff_ne, ne_eq]
      intro h
      exact ha (h ▸ List.mem_cons_self c t)
    have hih := ih (fun hm => ha (List.mem_cons_of_mem c hm))
    simp [List.cons_append, hasOccurL, List.isPrefixOf, hxc, hih]

/-- A needle headed by a character absent from the hay does not occur. -/
theorem hasOccurL_false (pat : List Char) (x : Char) (p s : List Char)
    (hpat : pat = x :: p) (hs : x ∉ s) :
    hasOccurL pat s = false := by
  have h := hasOccurL_skip pat x p s [] hpat hs
  rw [List.append_nil] at h
  rw [h, hpat]
  simp [hasOccurL, List.isPrefixOf]

/-- One unfolding step of the replacement scan. -/
theorem replaceFirstL_cons (pat r : List Char) (ch : Char) (t : List Char) :
    replaceFirstL pat r (ch :: t) =
      if pat.isPrefixOf (ch :: t) then r ++ (ch :: t).drop pat.length
      else ch :: replaceFirstL pat r t := rfl

/-- One unfolding step of the occurrence scan. -/
theorem hasOccurL_cons (pat : List Char) (ch : Char) (t : List Char) :
    hasOccurL pat (ch :: t) = (pat.isPrefixOf (ch :: t) || hasOccurL pat t) := rfl

/-- The replacement scan passes over a foreign placeholder token whose second
character differs from the second character of the pattern. -/
theorem replaceFirstL_step_tok (pat tokSeg r rest : List Char) (x c2 d2 : Char)
    (p2 q2 : List Char) (hpat : pat = x :: c2 :: p2) (htok : tokSeg = x :: d2 :: q2)
    (hne : (c2 == d2) = false) (hq : x ∉ (d2 :: q2)) :
    replaceFirstL pat r (tokSeg ++ rest) = tokSeg ++ replaceFirstL pat r rest := by
  subst hpat
  subst htok
  have hpre : ((x :: c2 :: p2).isPrefixOf (x :: d2 :: (q2 ++ rest))) = false := by
    simp [List.isPrefixOf, hne]
  rw [show (x :: d2 :: q2) ++ rest = x :: ((d2 :: q2) ++ rest) from rfl,
    show x :: ((d2 :: q2) ++ rest) = x :: (d2 :: (q2 ++ rest)) from rfl,
    replaceFirstL_cons, hpre]
  rw [if_neg (by decide : ¬ ((false : Bool) = true))]
  rw [show (d2 :: (q2 ++ rest)) = (d2 :: q2) ++ rest from rfl,
    replaceFirstL_skip _ x (c2 :: p2) r (d2 :: q2) rest rfl hq]
  rfl

/-- The occurrence scan passes over a foreign placeholder token whose second
character differs from the second character of the needle. -/
theorem hasOccurL_step_tok (pat tokSeg rest : List Char) (x c2 d2 : Char)
    (p2 q2 : List Char) (hpat : pat = x :: c2 :: p2) (htok : tokSeg = x :: d2 :: q2)
    (hne : (c2 == d2) = false) (hq : x ∉ (d2 :: q2)) :
    hasOccurL pat (tokSeg ++ rest) = hasOccurL pat rest := by
  subst hpat
  subst htok
  have hpre : ((x :: c2 :: p2).isPrefixOf (x :: d2 :: (q2 ++ rest))) = false := by
    simp [List.isPrefixOf, hne]
  rw [show (x :: d2 :: q2) ++ rest = x :: (d2 :: (q2 ++ rest)) from rfl,
    hasOccurL_cons, hpre]
  rw [show (d2 :: (q2 ++ rest)) = (d2 :: q2) ++ rest from rfl,
    hasOccurL_skip _ x (c2 :: p2) (d2 :: q2) rest rfl hq]
  rfl

/-- Without an occurrence, replacement is the identity. -/
theorem replaceFirstL_no_occur (p r s : List Char)
    (h : hasOccurL p s = false) : replaceFirstL p r s = s := by
  induction s with
  | nil =>
    unfold hasOccurL at h
    simp [replaceFirstL, h]
  | cons c t ih =>
    unfold hasOccurL at h
    rw [Bool.or_eq_false_iff] at h
    simp [replaceFirstL, h.1, ih h.2]

/-- An occurring needle contributes its head character to the hay. -/
theorem mem_of_hasOccurL (x : Char) (p s : List Char)
    (h : hasOccurL (x :: p) s = true) : x ∈ s := by
  induction s with
  | nil =>
    unfold hasOccurL at h
    simp [List.isPrefixOf] at h
  | cons c t ih =>
    unfold hasOccurL at h
    rw [Bool.or_eq_true] at h
    rcases h with h | h
    · unfold List.isPrefixOf at h
      rw [Bool.and_eq_true, beq_iff_eq] at h
      exact h.1 ▸ List.mem_cons_self c t
    · exact List.mem_cons_of_mem c (ih h)

/-- No character of a rendered decimal digit string is a bracket. -/
theorem digitChar_ne_bracket (m : Nat) : Nat.digitChar m ≠ '[' := by
  rcases Nat.lt_or_ge m 16 with h | h
  · interval_cases m <;> decide
  · have h0 : ¬ m = 0 := by omega
    have h1 : ¬ m = 1 := by omega
    have h2 : ¬ m = 2 := by omega
    have h3 : ¬ m = 3 := by omega
    have h4 : ¬ m = 4 := by omega
    have h5 : ¬ m = 5 := by omega
    have h6 : ¬ m = 6 := by omega
    have h7 : ¬ m = 7 := by omega
    have h8 : ¬ m = 8 := by omega
    have h9 : ¬ m = 9 := by omega
    have h10 : ¬ m = 10 := by omega
    have h11 : ¬ m = 11 := by omega
    have h12 : ¬ m = 12 := by omega
    have h13 : ¬ m = 13 := by omega
    have h14 : ¬ m = 14 := by omega
    have h15 : ¬ m = 15 := by omega
    unfold Nat.digitChar
    rw [if_neg h0, if_neg h1, if_neg h2, if_neg h3, if_neg h4, if_neg h5,
      if_neg h6, if_neg h7, if_neg h8, if_neg h9, if_neg h10, if_neg h11,
      if_neg h12, if_neg h13, if_neg h14, if_neg h15]
    decide

theorem toDigitsCore_mem {c : Char} : ∀ (fuel n : Nat) (ds : List Char),
    c ∈ Nat.toDigitsCore 10 fuel n ds → (∃ m, c = Nat.digitChar m) ∨ c ∈ ds := by
  intro fuel
  induction fuel with
  | zero => intro n ds h; exact Or.inr h
  | succ fuel ih =>
    intro n ds h
    unfold Nat.toDigitsCore at h
    dsimp only [] at h
    split at h
    · rcases List.mem_cons.mp h with h | h
      · exact Or.inl ⟨n % 10, h⟩
      · exact Or.inr h
    · rcases ih _ _ h with h | h
      · exact Or.inl h
      · rcases List.mem_cons.mp h with h | h
        · exact Or.inl ⟨n % 10, h⟩
        · exact Or.inr h

/-- The decimal rendering of an `Int` (the `[DAYS_COUNT]` substitution)
contains no bracket. -/
theorem bracket_notMem_toString_int (i : Int) : '[' ∉ (toString i).data := by
  have hnat : ∀ n : Nat, '[' ∉ (Nat.repr n).data := by
    intro n hmem
    have hmem' : '[' ∈ Nat.toDigits 10 n := hmem
    unfold Nat.toDigits at hmem'
    rcases toDigitsCore_mem _ _ _ hmem' with ⟨m, hm⟩ | h
    · exact digitChar_ne_bracket m hm.symm
    · simp at h
  cases i with
  | ofNat m => exact hnat m
  | negSucc m =>
    intro hmem
    have : '[' ∈ ('-' :: (Nat.repr (m + 1)).data) := hmem
    rcases List.mem_cons.mp this with h | h
    · exact absurd h (by decide)
    · exact hnat (m + 1) h

/-- The four first-occurrence replacements of the composer on a template of
the shape `A [MP_NAME] B [DAYS_COUNT] C [CONSTITUENCY_INFO] D` (each token
once, no other bracket): every token is eliminated and the substituted
values land in place. -/
theorem pipelineL (a b c d f days loc : List Char)
    (ha : '[' ∉ a) (hb : '[' ∉ b) (hc : '[' ∉ c) (hd : '[' ∉ d)
    (hf : '[' ∉ f) (hdays : '[' ∉ days) :
    replaceFirstL ("[CONSTITUENCY_INFO]".data) loc
      (replaceFirstL ("[MP_NAME]".data) f
        (replaceFirstL ("[MP_NAME]".data) f
          (replaceFirstL ("[DAYS_COUNT]".data) days
            (a ++ ("[MP_NAME]".data ++ (b ++ ("[DAYS_COUNT]".data ++
              (c ++ ("[CONSTITUENCY_INFO]".data ++ d)))))))))
    = a ++ (f ++ (b ++ (days ++ (c ++ (loc ++ d))))) := by
  have s1 : replaceFirstL ("[DAYS_COUNT]".data) days
      (a ++ ("[MP_NAME]".data ++ (b ++ ("[DAYS_COUNT]".data ++
        (c ++ ("[CONSTITUENCY_INFO]".data ++ d))))))
      = a ++ ("[MP_NAME]".data ++ (b ++ (days ++
        (c ++ ("[CONSTITUENCY_INFO]".data ++ d))))) := by
    rw [replaceFirstL_skip ("[DAYS_COUNT]".data) '[' ("DAYS_COUNT]".data) days a _ rfl ha]
    rw [replaceFirstL_step_tok ("[DAYS_COUNT]".data) ("[MP_NAME]".data) days _
      '[' 'D' 'M' ("AYS_COUNT]".data) ("P_NAME]".data) rfl rfl (by decide) (by decide)]
    rw [replaceFirstL_skip ("[DAYS_COUNT]".data) '[' ("DAYS_COUNT]".data) days b _ rfl hb]
    rw [replaceFirstL_fire ("[DAYS_COUNT]".data) days _]
  have s2 : replaceFirstL ("[MP_NAME]".data) f
      (a ++ ("[MP_NAME]".data ++ (b ++ (days ++
        (c ++ ("[CONSTITUENCY_INFO]".data ++ d))))))
      = a ++ (f ++ (b ++ (days ++ (c ++ ("[CONSTITUENCY_INFO]".data ++ d))))) := by
    rw [replaceFirstL_skip ("[MP_NAME]".data) '[' ("MP_NAME]".data) f a _ rfl ha]
    rw [replaceFirstL_fire ("[MP_NAME]".data) f _]
  have s3 : hasOccurL ("[MP_NAME]".data)
      (a ++ (f ++ (b ++ (days ++ (c ++ ("[CONSTITUENCY_INFO]".data ++ d))))))
      = false := by
    rw [hasOccurL_skip ("[MP_NAME]".data) '[' ("MP_NAME]".data) a _ rfl ha,
      hasOccurL_skip ("[MP_NAME]".data) '[' ("MP_NAME]".data) f _ rfl hf,
      hasOccurL_skip ("[MP_NAME]".data) '[' ("MP_NAME]".data) b _ rfl hb,
      hasOccurL_skip ("[MP_NAME]".data) '[' ("MP_NAME]".data) days _ rfl hdays,
      hasOccurL_skip ("[MP_NAME]".data) '[' ("MP_NAME]".data) c _ rfl hc,
      hasOccurL_step_tok ("[MP_NAME]".data) ("[CONSTITUENCY_INFO]".data) _
        '[' 'M' 'C' ("P_NAME]".data) ("ONSTITUENCY_INFO]".data) rfl rfl
        (by decide) (by decide)]
    exact hasOccurL_false ("[MP_NAME]".data) '[' ("MP_NAME]".data) d rfl hd
  have s4 := replaceFirstL_no_occur ("[MP_NAME]".data) f _ s3
  have s5 : replaceFirstL ("[CONSTITUENCY_INFO]".data) loc
      (a ++ (f ++ (b ++ (days ++ (c ++ ("[CONSTITUENCY_INFO]".data ++ d))))))
      = a ++ (f ++ (b ++ (days ++ (c ++ (loc ++ d))))) := by
    rw [replaceFirstL_skip ("[CONSTITUENCY_INFO]".data) '[' ("CONSTITUENCY_INFO]".data) loc a _ rfl ha,
      replaceFirstL_skip ("[CONSTITUENCY_INFO]".data) '[' ("CONSTITUENCY_INFO]".data) loc f _ rfl hf,
      replaceFirstL_skip ("[CONSTITUENCY_INFO]".data) '[' ("CONSTITUENCY_INFO]".data) loc b _ rfl hb,
      replaceFirstL_skip ("[CONSTITUENCY_INFO]".data) '[' ("CONSTITUENCY_INFO]".data) loc days _ rfl hdays,
      replaceFirstL_skip ("[CONSTITUENCY_INFO]".data) '[' ("CONSTITUENCY_INFO]".data) loc c _ rfl hc,
      replaceFirstL_fire ("[CONSTITUENCY_INFO]".data) loc _]
  rw [s1, s2, s4, s5]

/-- Modelled from the spec: the template fixture `email-templates.json` of
this repository is not under `src/` (only its loader and consumers are), so
its contents are modelled from the spec — named template lists (regular, a
single prime-minister entry, French) whose `body` strings contain the
literal placeholder tokens `[MP_NAME]`, `[CONSTITUENCY_INFO]` and
`[DAYS_COUNT]`.  One representative body per list, carrying each token
once and no other bracket. -/
def fixtureTemplates : EmailTemplates :=
  { regularTemplates :=
      [⟨"Dear [MP_NAME], for [DAYS_COUNT] days we have asked for action. I write from [CONSTITUENCY_INFO]. Sincerely,"⟩],
    primeMinisterTemplate :=
      ⟨"Dear Prime Minister [MP_NAME], for [DAYS_COUNT] days Canadians have called for action. I write from [CONSTITUENCY_INFO]. Sincerely,"⟩,
    frenchTemplates :=
      [⟨"Cher [MP_NAME], depuis [DAYS_COUNT] jours nous demandons une action. De [CONSTITUENCY_INFO]. Cordialement,"⟩] }

/-- The composer chain applied to one fixture body decomposed around its
tokens leaves no bracket when the substituted values carry none. -/
theorem compose_case_no_bracket (body A B C D : String) (mpData : MP)
    (days loc : String)
    (hdecomp : body.data = A.data ++ ("[MP_NAME]".data ++ (B.data ++
      ("[DAYS_COUNT]".data ++ (C.data ++ ("[CONSTITUENCY_INFO]".data ++ D.data))))))
    (hA : '[' ∉ A.data) (hB : '[' ∉ B.data) (hC : '[' ∉ C.data) (hD : '[' ∉ D.data)
    (hf : '[' ∉ mpData.fullName.data) (hdays : '[' ∉ days.data) (hloc : '[' ∉ loc.data) :
    '[' ∉ (replaceFirst (replaceFirst (replaceFirst (replaceFirst body
      "[DAYS_COUNT]" days) "[MP_NAME]" mpData.fullName) "[MP_NAME]" mpData.fullName)
      "[CONSTITUENCY_INFO]" loc).data := by
  show '[' ∉ replaceFirstL ("[CONSTITUENCY_INFO]".data) loc.data
    (replaceFirstL ("[MP_NAME]".data) mpData.fullName.data
      (replaceFirstL ("[MP_NAME]".data) mpData.fullName.data
        (replaceFirstL ("[DAYS_COUNT]".data) days.data body.data)))
  rw [hdecomp,
    pipelineL A.data B.data C.data D.data mpData.fullName.data days.data loc.data
      hA hB hC hD hf hdays]
  intro hm
  simp only [List.mem_append] at hm
  rcases hm with hm | hm | hm | hm | hm | hm | hm
  exacts [hA hm, hf hm, hB hm, hdays hm, hC hm, hloc hm, hD hm]

/-- The appended vacant-seat note carries no bracket when the record fields
carry none. -/
theorem note_no_bracket (lang : Language) (mpData : MP)
    (hac : '[' ∉ (mpData.actualConstituency.getD "").data)
    (hpc : '[' ∉ (mpData.postalCode.getD "").data) :
    '[' ∉ (constituencyNote lang mpData).data := by
  intro hm
  unfold constituencyNote at hm
  by_cases hopt : optTruthy mpData.postalCode = true
  all_goals cases lang
  all_goals simp only [hopt, if_true, if_false, Bool.false_eq_true,
    strData_append, List.mem_append, or_assoc, String.data,
    List.not_mem_nil, or_false, false_or] at hm
  all_goals repeat
    first
      | exact hac hm
      | exact hpc hm
      | exact absurd hm (by decide)
      | rcases hm with hm | hm

/-- C7 as stated is false on the code: quantifying over every MP record, a
record whose constituency field itself contains a placeholder token has that
token reintroduced by the `[CONSTITUENCY_INFO]` substitution, so the
composed body still contains `[DAYS_COUNT]` literally. -/
theorem composed_body_counterexample :
    strIncludes
      (composeEmailBody (some fixtureTemplates)
        { mpOttawaA with constituency := "[DAYS_COUNT]" } Language.en 0 0 0)
      "[DAYS_COUNT]" = true := by
  decide

/-- C7 amended: for every template of the (spec-modelled) fixture set and
every MP record whose field values contain no bracket character, the
composed email body contains no occurrence of `[MP_NAME]`,
`[CONSTITUENCY_INFO]` or `[DAYS_COUNT]`.  (An MP field containing a bracket
can reintroduce a token, as the counterexample shows.) -/
theorem composed_body_no_tokens (mpData : MP) (lang : Language) (r : Nat)
    (t s : Int)
    (hf : '[' ∉ mpData.fullName.data) (hco : '[' ∉ mpData.constituency.data)
    (hpr : '[' ∉ mpData.province.data)
    (hac : '[' ∉ (mpData.actualConstituency.getD "").data)
    (hpc : '[' ∉ (mpData.postalCode.getD "").data) :
    strIncludes (composeEmailBody (some fixtureTemplates) mpData lang r t s)
      "[MP_NAME]" = false ∧
    strIncludes (composeEmailBody (some fixtureTemplates) mpData lang r t s)
      "[CONSTITUENCY_INFO]" = false ∧
    strIncludes (composeEmailBody (some fixtureTemplates) mpData lang r t s)
      "[DAYS_COUNT]" = false := by
  have hdays : '[' ∉ (toString (daysSinceStart t s)).data :=
    bracket_notMem_toString_int _
  have hloc : '[' ∉ (mpData.constituency ++ ", " ++ mpData.province).data := by
    intro hm
    rw [strData_append, strData_append] at hm
    rcases List.mem_append.mp hm with hm | hm
    · rcases List.mem_append.mp hm with hm | hm
      · exact hco hm
      · exact absurd hm (by decide)
    · exact hpr hm
  have hpipe : '[' ∉ (replaceFirst (replaceFirst (replaceFirst (replaceFirst
      (selectTemplate fixtureTemplates mpData lang r)
      "[DAYS_COUNT]" (toString (daysSinceStart t s)))
      "[MP_NAME]" mpData.fullName) "[MP_NAME]" mpData.fullName)
      "[CONSTITUENCY_INFO]" (mpData.constituency ++ ", " ++ mpData.province)).data := by
    cases lang with
    | fr =>
      have hsel : selectTemplate fixtureTemplates mpData Language.fr r =
          "Cher [MP_NAME], depuis [DAYS_COUNT] jours nous demandons une action. De [CONSTITUENCY_INFO]. Cordialement," := by
        simp [selectTemplate, fixtureTemplates, Nat.mod_one]
      rw [hsel]
      exact compose_case_no_bracket _ "Cher " ", depuis "
        " jours nous demandons une action. De " ". Cordialement," mpData _ _
        (by decide) (by decide) (by decide) (by decide) (by decide) hf hdays hloc
    | en =>
      by_cases hmc : (mpData.fullName == "Mark Carney") = true
      · have hsel : selectTemplate fixtureTemplates mpData Language.en r =
            "Dear Prime Minister [MP_NAME], for [DAYS_COUNT] days Canadians have called for action. I write from [CONSTITUENCY_INFO]. Sincerely," := by
          simp [selectTemplate, fixtureTemplates, hmc, Nat.mod_one]
        rw [hsel]
        exact compose_case_no_bracket _ "Dear Prime Minister " ", for "
          " days Canadians have called for action. I write from " ". Sincerely,"
          mpData _ _
          (by decide) (by decide) (by decide) (by decide) (by decide) hf hdays hloc
      · have hsel : selectTemplate fixtureTemplates mpData Language.en r =
            "Dear [MP_NAME], for [DAYS_COUNT] days we have asked for action. I write from [CONSTITUENCY_INFO]. Sincerely," := by
          simp only [Bool.not_eq_true] at hmc
          simp [selectTemplate, fixtureTemplates, hmc, Nat.mod_one]
        rw [hsel]
        exact compose_case_no_bracket _ "Dear " ", for "
          " days we have asked for action. I write from " ". Sincerely," mpData _ _
          (by decide) (by decide) (by decide) (by decide) (by decide) hf hdays hloc
  have hbody : '[' ∉ (composeEmailBody (some fixtureTemplates) mpData lang r t s).data := by
    unfold composeEmailBody getEmailTemplate
    dsimp only []
    split
    · intro hm
      rw [strData_append] at hm
      rcases List.mem_append.mp hm with hm | hm
      · exact hpipe hm
      · exact note_no_bracket lang mpData hac hpc hm
    · exact hpipe
  exact ⟨hasOccurL_false _ '[' ("MP_NAME]".data) _ rfl hbody,
    hasOccurL_false _ '[' ("CONSTITUENCY_INFO]".data) _ rfl hbody,
    hasOccurL_false _ '[' ("DAYS_COUNT]".data) _ rfl hbody⟩

theorem composed_body_no_tokens_witness :
    strIncludes (composeEmailBody (some fixtureTemplates) mpOttawaA Language.en 0 0 0)
      "[MP_NAME]" = false :=
  (composed_body_no_tokens mpOttawaA Language.en 0 0 0
    (by decide) (by decide) (by decide) (by decide) (by decide)).1

end MPLookup
